import Mathlib

/-!
Verification of the godspeed-downloader engine-update and download-supervisor
code (src-tauri). The Rust source is shallowly embedded: every I/O operation
is resolved through an explicit environment record (an oracle giving the
outcome of each filesystem / network / process primitive), and each embedded
function returns its result together with the effect trace and final state
the claims talk about. The embedding follows the Windows build of the crate
(so ENGINE_BINARIES is the Windows triple and the cfg(unix) permission block
of extract_zip is compiled out). Paths are modelled as component lists.
-/

set_option maxRecDepth 4000

namespace Godspeed

/-- Model of std::io::ErrorKind, keeping only the distinction the code makes. -/
inductive IoKind where
  | permissionDenied
  | other
deriving DecidableEq, Repr

/-- Model of std::io::Error: a kind plus the optional raw OS error code. -/
structure IoError where
  kind : IoKind
  rawOsError : Option Nat
deriving DecidableEq, Repr

/-- Model of error.rs AppError. Wrapped foreign errors (reqwest, zip) are
carried as their rendered message strings. -/
inductive AppError where
  | Io (e : IoError)
  | Network (msg : String)
  | Zip (msg : String)
  | Tauri (msg : String)
  | Logic (msg : String)
deriving DecidableEq, Repr

/-- Display rendering of AppError (the thiserror derive in error.rs),
parametrised by a rendering of io::Error. -/
def renderAppError (showIo : IoError → String) : AppError → String
  | .Io e => "I/O error: " ++ showIo e
  | .Network m => "Network error: " ++ m
  | .Zip m => "ZIP extraction error: " ++ m
  | .Tauri m => "Tauri error: " ++ m
  | .Logic m => m

/-- A filesystem path, as its list of components. -/
abbrev PathC := List String

/-- PathBuf::parent: none for the empty path, otherwise drop the last
component. -/
def pathParent (p : PathC) : Option PathC :=
  match p with
  | [] => none
  | _ => some p.dropLast

/-- Rendering of a path used for the substring tests of the dev-mode check. -/
def pathToStr (p : PathC) : String :=
  String.intercalate "/" p

/-! ## copy_with_retry (utils/zip.rs)

fs::copy outcomes are given by an oracle from the attempt index to the
optional io::Error of that attempt (none means the copy succeeded). The
function returns the result together with the number of copy attempts
performed and the number of 500ms sleeps performed. -/

/-- The final Err built after the retry loop of copy_with_retry. -/
def copyFinalErr : Option IoError → Except AppError Unit
  | some e => .error (.Io e)
  | none => .error (.Logic "Copy failed with unknown error")

/-- One io::Error carries a sharing/lock violation code (32 or 33). -/
def sharingViolation (e : IoError) : Bool :=
  e.rawOsError = some 32 || e.rawOsError = some 33

/-- The retry loop of copy_with_retry: fuel counts the iterations left of
for attempt in 0..max_retries; attempt, lastError and sleeps carry the loop
state. Returns (result, attempts performed, sleeps performed). -/
def copyAux (outcome : Nat → Option IoError) (maxRetries : Nat) :
    Nat → Nat → Option IoError → Nat → Except AppError Unit × Nat × Nat
  | 0, attempt, lastError, sleeps => (copyFinalErr lastError, attempt, sleeps)
  | fuel + 1, attempt, _, sleeps =>
    match outcome attempt with
    | none => (.ok (), attempt + 1, sleeps)
    | some e =>
      if sharingViolation e && decide (attempt < maxRetries - 1) then
        copyAux outcome maxRetries fuel (attempt + 1) (some e) (sleeps + 1)
      else
        (copyFinalErr (some e), attempt + 1, sleeps)

/-- copy_with_retry from utils/zip.rs over the copy-outcome oracle. -/
def copy_with_retry (outcome : Nat → Option IoError) (max_retries : Nat) :
    Except AppError Unit × Nat × Nat :=
  copyAux outcome max_retries max_retries 0 none 0

/-- Attempt index i is reached by the retry loop: it is in range and every
earlier attempt failed with a sharing violation. -/
def ReachedAttempt (outcome : Nat → Option IoError) (max_retries i : Nat) : Prop :=
  i < max_retries ∧ ∀ j < i, ∃ e, outcome j = some e ∧ sharingViolation e = true

theorem copyAux_attempts_le (outcome : Nat → Option IoError) (max_retries : Nat) :
    ∀ fuel attempt le s,
      (copyAux outcome max_retries fuel attempt le s).2.1 ≤ attempt + fuel := by
  intro fuel
  induction fuel with
  | zero => intro attempt le s; simp [copyAux]
  | succ n ih =>
    intro attempt le s
    simp only [copyAux]
    cases ho : outcome attempt with
    | none => simp [ho]
    | some e =>
      by_cases hc : (sharingViolation e && decide (attempt < max_retries - 1)) = true
      · simp only [hc, if_true]
        have := ih (attempt + 1) (some e) (s + 1)
        omega
      · simp only [Bool.not_eq_true] at hc
        simp only [hc, Bool.false_eq_true, if_false]
        omega

theorem copy_with_retry_reached (outcome : Nat → Option IoError) (max_retries : Nat) :
    ∀ i, ReachedAttempt outcome max_retries i →
      ∃ le, copy_with_retry outcome max_retries =
        copyAux outcome max_retries (max_retries - i) i le i := by
  intro i
  induction i with
  | zero => intro _; exact ⟨none, by simp [copy_with_retry]⟩
  | succ n ih =>
    intro h
    obtain ⟨hlt, hall⟩ := h
    obtain ⟨le, heq⟩ := ih ⟨by omega, fun j hj => hall j (by omega)⟩
    obtain ⟨e, he, hsh⟩ := hall n (Nat.lt_succ_self n)
    refine ⟨some e, ?_⟩
    rw [heq]
    have hfuel : max_retries - n = (max_retries - (n + 1)) + 1 := by omega
    rw [hfuel]
    have hdec : decide (n < max_retries - 1) = true := by
      simp only [decide_eq_true_eq]
      omega
    simp only [copyAux, he, hsh, hdec, Bool.and_self, if_true]

/-- C5: copy_with_retry performs at most maxAttempts copy attempts; it sleeps
and retries only when the attempt failed with OS error code 32 or 33 and
attempts remain (each reached attempt after the first required such a failure
and one sleep); on any other error at a reached attempt it returns that error
immediately without a further sleep; and exhaustion of attempts returns the
last error. -/
theorem claim_C5_copy_with_retry (outcome : Nat → Option IoError) (max_retries : Nat) :
    (copy_with_retry outcome max_retries).2.1 ≤ max_retries ∧
    (∀ i, ReachedAttempt outcome max_retries i → outcome i = none →
      copy_with_retry outcome max_retries = (.ok (), i + 1, i)) ∧
    (∀ i e, ReachedAttempt outcome max_retries i → outcome i = some e →
      sharingViolation e = false →
      copy_with_retry outcome max_retries = (.error (.Io e), i + 1, i)) ∧
    (∀ i e, ReachedAttempt outcome max_retries i → outcome i = some e →
      sharingViolation e = true → i + 1 = max_retries →
      copy_with_retry outcome max_retries = (.error (.Io e), max_retries, i)) := by
  refine ⟨?_, ?_, ?_, ?_⟩
  · have h := copyAux_attempts_le outcome max_retries max_retries 0 none 0
    simpa [copy_with_retry] using h
  · intro i hr ho
    have hlt := hr.1
    obtain ⟨le, heq⟩ := copy_with_retry_reached outcome max_retries i hr
    rw [heq]
    have hfuel : max_retries - i = (max_retries - (i + 1)) + 1 := by omega
    rw [hfuel]
    simp [copyAux, ho]
  · intro i e hr ho hns
    have hlt := hr.1
    obtain ⟨le, heq⟩ := copy_with_retry_reached outcome max_retries i hr
    rw [heq]
    have hfuel : max_retries - i = (max_retries - (i + 1)) + 1 := by omega
    rw [hfuel]
    simp [copyAux, ho, hns, copyFinalErr]
  · intro i e hr ho hsh hlast
    have hlt := hr.1
    obtain ⟨le, heq⟩ := copy_with_retry_reached outcome max_retries i hr
    rw [heq]
    have hfuel : max_retries - i = (max_retries - (i + 1)) + 1 := by omega
    rw [hfuel]
    have hdec : decide (i < max_retries - 1) = false := by
      simp only [decide_eq_false_iff_not]
      omega
    simp [copyAux, ho, hsh, hdec, copyFinalErr]
    omega

/-- Witness for C5: with an outcome that fails with code 32 on the first
attempt and succeeds on the second, three allowed attempts give success after
exactly two attempts and one sleep. -/
theorem claim_C5_witness :
    copy_with_retry (fun i => if i = 0 then some ⟨IoKind.other, some 32⟩ else none) 3 =
      (.ok (), 2, 1) := by
  refine (claim_C5_copy_with_retry _ 3).2.1 1 ⟨by omega, ?_⟩ (by decide)
  intro j hj
  have hj0 : j = 0 := by omega
  subst hj0
  exact ⟨⟨IoKind.other, some 32⟩, rfl, by decide⟩

/-- C10: with maxAttempts equal to 0, copy_with_retry performs no copy
attempt and no sleep and returns the generic logic error. -/
theorem claim_C10_zero_attempts (outcome : Nat → Option IoError) :
    copy_with_retry outcome 0 =
      (.error (.Logic "Copy failed with unknown error"), 0, 0) := rfl

/-- Witness for C10 at a concrete outcome oracle. -/
theorem claim_C10_witness :
    copy_with_retry (fun _ => some ⟨IoKind.other, some 32⟩) 0 =
      (.error (.Logic "Copy failed with unknown error"), 0, 0) :=
  claim_C10_zero_attempts (fun _ => some ⟨IoKind.other, some 32⟩)

/-! ## config.rs -/

/-- get_audio_bitrate from config.rs. -/
def get_audio_bitrate (quality : String) : String :=
  match quality with
  | "128k" => "128K"
  | "192k" => "192K"
  | "256k" => "256K"
  | "320k" => "320K"
  | _ => "320K"

/-- Event name for download progress notifications (config.rs). -/
def EVENT_DOWNLOAD_PROGRESS : String := "download-progress"

/-- Event name for download completion notifications (config.rs). -/
def EVENT_DOWNLOAD_COMPLETE : String := "download-complete"

/-- Engine binary filenames for Windows (config.rs, cfg(target_os = "windows")). -/
def ENGINE_BINARIES : List String :=
  ["yt-dlp-x86_64-pc-windows-msvc.exe",
   "aria2c-x86_64-pc-windows-msvc.exe",
   "ffmpeg-x86_64-pc-windows-msvc.exe"]

/-- C8: get_audio_bitrate maps the four recognised quality strings to their
uppercase bitrates and every other input to 320K; it never fails. -/
theorem claim_C8_get_audio_bitrate :
    get_audio_bitrate "128k" = "128K" ∧
    get_audio_bitrate "192k" = "192K" ∧
    get_audio_bitrate "256k" = "256K" ∧
    get_audio_bitrate "320k" = "320K" ∧
    ∀ q, q ≠ "128k" → q ≠ "192k" → q ≠ "256k" → q ≠ "320k" →
      get_audio_bitrate q = "320K" := by
  refine ⟨rfl, rfl, rfl, rfl, ?_⟩
  intro q h1 h2 h3 h4
  unfold get_audio_bitrate
  split
  · exact absurd rfl h1
  · exact absurd rfl h2
  · exact absurd rfl h3
  · exact absurd rfl h4
  · rfl

/-- Witness for C8: an unrecognised quality string falls back to 320K. -/
theorem claim_C8_witness : get_audio_bitrate "64k" = "320K" :=
  claim_C8_get_audio_bitrate.2.2.2.2 "64k" (by decide) (by decide) (by decide)
    (by decide)

/-! ## Substring search and trimming (str::find / str::contains / str::trim)

Lines are modelled as lists of characters; str::find returns the index of the
first occurrence of the pattern (for the ASCII marker used here, the byte
index of the Rust source and the character index of the model coincide on the
text preceding the marker's first occurrence). str::trim is modelled over
ASCII whitespace. -/

/-- Index of the first occurrence of pat in s (str::find). -/
def findSubIdx (pat : List Char) : List Char → Option Nat
  | [] => if pat = [] then some 0 else none
  | c :: rest =>
    if pat.isPrefixOf (c :: rest) then some 0
    else (findSubIdx pat rest).map (fun n => n + 1)

/-- str::contains, via findSubIdx. -/
def containsSub (s pat : List Char) : Bool :=
  (findSubIdx pat s).isSome

/-- str::trim over ASCII whitespace. -/
def trimChars (s : List Char) : List Char :=
  ((s.dropWhile Char.isWhitespace).reverse.dropWhile Char.isWhitespace).reverse

/-! ## download_video (commands/downloader.rs)

The spawned process is modelled by the list of CommandEvents the receiver
delivers; emits to the frontend are collected as (event name, payload) pairs
in order. -/

/-- Model of tauri_plugin_shell CommandEvent, with lines as char lists. -/
inductive ProcEvent where
  | stdout (line : List Char)
  | stderr (line : List Char)
  | terminated (code : Option Int)
  | other
deriving DecidableEq, Repr

/-- The supervisor's loop state: the best-known final path and the emitted
events so far. -/
structure DlState where
  finalFilePath : Option (List Char)
  emits : List (String × List Char)
deriving DecidableEq, Repr

/-- The destination marker searched for in output lines. -/
def DEST_MARKER : List Char := "Destination:".toList

/-- The final-format extension the supervisor keeps. -/
def MP3_EXT : List Char := ".mp3".toList

/-- The candidate path parsed from a line: if the line contains the marker,
the trimmed text after the first occurrence (offset 12, the marker length,
exactly as the source hardcodes it). -/
def destCandidate (line : List Char) : Option (List Char) :=
  if containsSub line DEST_MARKER then
    match findSubIdx DEST_MARKER line with
    | some i => some (trimChars (line.drop (i + 12)))
    | none => none
  else none

/-- Debug rendering of the Option exit code used in the error progress line. -/
def formatExitCode : Option Int → String
  | some n => "Some(" ++ toString n ++ ")"
  | none => "None"

/-- The progress line emitted for a non-zero process exit. -/
def exitErrorLine (code : Option Int) : List Char :=
  ("[ERROR] Process exited with code: " ++ formatExitCode code).toList

/-- Handling of one output line (identical for the stdout and stderr arms of
the source). -/
def handleLine (line : List Char) (st : DlState) : DlState :=
  let st1 :=
    match destCandidate line with
    | some path =>
      if MP3_EXT.isSuffixOf path then { st with finalFilePath := some path }
      else st
    | none => st
  if !(trimChars line).isEmpty then
    { st1 with emits := st1.emits ++ [(EVENT_DOWNLOAD_PROGRESS, line)] }
  else st1

/-- One iteration of the supervisor's event loop. -/
def downloadStep (ev : ProcEvent) (st : DlState) : DlState :=
  match ev with
  | .stdout line => handleLine line st
  | .stderr line => handleLine line st
  | .terminated code =>
    if code = some 0 then
      let st1 :=
        match st.finalFilePath with
        | some p => { st with emits := st.emits ++ [(EVENT_DOWNLOAD_COMPLETE, p)] }
        | none => st
      { st1 with
        emits := st1.emits ++ [(EVENT_DOWNLOAD_PROGRESS, "Download completed!".toList)] }
    else
      { st with emits := st.emits ++ [(EVENT_DOWNLOAD_PROGRESS, exitErrorLine code)] }
  | .other => st

/-- Result of one download_video invocation: the command result, the emitted
events, and the argument list passed to the sidecar. -/
structure DlRun where
  result : Except AppError (List Char)
  emits : List (String × List Char)
  args : List String
deriving Repr

/-- download_video from commands/downloader.rs. sidecar and spawn are the
outcomes of creating and spawning the yt-dlp sidecar; events is the sequence
the receiver delivers until the channel closes. -/
def download_video (sidecar spawn : Except String Unit)
    (url output_path quality : String) (events : List ProcEvent) : DlRun :=
  let audio_bitrate := get_audio_bitrate quality
  let output_template := output_path ++ "/%(title)s.%(ext)s"
  let args := ["--no-playlist", "--windows-filenames", "--trim-filenames", "200",
    "-o", output_template, "--extract-audio", "--audio-format", "mp3",
    "--audio-quality", audio_bitrate, "--external-downloader", "aria2c",
    "--external-downloader-args", "-x 16 -k 1M", url]
  match sidecar with
  | .error e => ⟨.error (.Tauri ("Failed to create sidecar command: " ++ e)), [], args⟩
  | .ok _ =>
    match spawn with
    | .error e => ⟨.error (.Tauri ("Failed to spawn yt-dlp: " ++ e)), [], args⟩
    | .ok _ =>
      let fin := events.foldl (fun st ev => downloadStep ev st) ⟨none, []⟩
      ⟨.ok (fin.finalFilePath.getD "Download completed".toList), fin.emits, args⟩

/-- C4: once the sidecar is spawned, download_video returns success whatever
the event sequence holds: the result is always ok (the captured path, or the
fallback completion string when no destination was ever captured), and a
non-zero exit is reported only as a progress event by the terminated arm,
never escalated to an error. -/
theorem claim_C4_download_supervisor (url output_path quality : String)
    (events : List ProcEvent) :
    (download_video (.ok ()) (.ok ()) url output_path quality events).result =
      .ok (((events.foldl (fun st ev => downloadStep ev st)
        ⟨none, []⟩).finalFilePath).getD "Download completed".toList) ∧
    ((events.foldl (fun st ev => downloadStep ev st) ⟨none, []⟩).finalFilePath
        = none →
      (download_video (.ok ()) (.ok ()) url output_path quality events).result =
        .ok "Download completed".toList) ∧
    (∀ code st, code ≠ some 0 →
      (downloadStep (.terminated code) st).finalFilePath = st.finalFilePath ∧
      (downloadStep (.terminated code) st).emits =
        st.emits ++ [(EVENT_DOWNLOAD_PROGRESS, exitErrorLine code)]) := by
  refine ⟨rfl, ?_, ?_⟩
  · intro h
    simp [download_video, h]
  · intro code st hc
    constructor <;> simp [downloadStep, hc]

/-- Witness for C4: a run that only reports an error line and exits with
code 1 still returns the fallback completion string. -/
theorem claim_C4_witness :
    (download_video (.ok ()) (.ok ()) "u" "o" "320k"
      [.stderr "some yt-dlp error".toList, .terminated (some 1)]).result =
      .ok "Download completed".toList := by
  refine (claim_C4_download_supervisor "u" "o" "320k" _).2.1 ?_
  decide

/-- C6: for any held candidate, a line containing the Destination marker
whose trimmed following text ends in .mp3 replaces the candidate (on either
stream), and one whose text does not end in .mp3 leaves it unchanged. -/
theorem claim_C6_destination_line (line : List Char) (cur : Option (List Char))
    (emits : List (String × List Char)) (p : List Char)
    (h : destCandidate line = some p) :
    (MP3_EXT.isSuffixOf p = true →
      (downloadStep (.stdout line) ⟨cur, emits⟩).finalFilePath = some p ∧
      (downloadStep (.stderr line) ⟨cur, emits⟩).finalFilePath = some p) ∧
    (MP3_EXT.isSuffixOf p = false →
      (downloadStep (.stdout line) ⟨cur, emits⟩).finalFilePath = cur ∧
      (downloadStep (.stderr line) ⟨cur, emits⟩).finalFilePath = cur) := by
  constructor
  · intro hs
    constructor <;>
      · simp only [downloadStep, handleLine, h, hs, if_true]
        split <;> rfl
  · intro hs
    constructor <;>
      · simp only [downloadStep, handleLine, h, hs, Bool.false_eq_true, if_false]
        split <;> rfl

/-- Witness for C6: a destination line for an mp3 file is captured from
stdout, starting from an empty session. -/
theorem claim_C6_witness :
    (downloadStep (.stdout "[ExtractAudio] Destination: /m/s.mp3".toList)
      ⟨none, []⟩).finalFilePath = some "/m/s.mp3".toList := by
  have h : destCandidate "[ExtractAudio] Destination: /m/s.mp3".toList =
      some "/m/s.mp3".toList := by decide
  exact ((claim_C6_destination_line _ none [] _ h).1 (by decide)).1

/-! ## resolve_binaries_dir (commands/engine.rs)

The environment gives the outcome of std::env::current_exe, the existence
oracle for the src-tauri probes of the dev-mode search, and the optional
CARGO_MANIFEST_DIR variable. -/

/-- Environment of one resolve_binaries_dir call. -/
structure ResolverEnv where
  currentExe : Except IoError PathC
  pathExists : PathC → Bool
  cargoManifestDir : Option String

/-- str::contains on strings, via the char-list search. -/
def containsStr (s pat : String) : Bool :=
  containsSub s.toList pat.toList

/-- The dev-mode test of resolve_binaries_dir: the executable directory
string contains a target/debug or target/release segment (either separator). -/
def isDevMode (exe_dir : PathC) : Bool :=
  containsStr (pathToStr exe_dir) "target\\debug" ||
  containsStr (pathToStr exe_dir) "target/debug" ||
  containsStr (pathToStr exe_dir) "target\\release" ||
  containsStr (pathToStr exe_dir) "target/release"

/-- The bounded upward search for a src-tauri directory (the for _ in 0..5
loop with search_path as state). -/
def devSearch (env : ResolverEnv) : Option PathC → Nat → Option PathC
  | _, 0 => none
  | none, _ + 1 => none
  | some path, n + 1 =>
    if env.pathExists (path ++ ["src-tauri"]) then some (path ++ ["src-tauri"])
    else devSearch env (pathParent path) n

/-- resolve_binaries_dir from commands/engine.rs. -/
def resolve_binaries_dir (env : ResolverEnv) : Except AppError PathC :=
  match env.currentExe with
  | .error e => .error (.Io e)
  | .ok current_exe =>
    match pathParent current_exe with
    | none => .error (.Logic "Failed to get executable directory")
    | some exe_dir =>
      if isDevMode exe_dir then
        match devSearch env (some exe_dir) 5 with
        | some src_tauri => .ok src_tauri
        | none =>
          match env.cargoManifestDir with
          | some manifest_dir => .ok [manifest_dir]
          | none => .ok exe_dir
      else
        .ok exe_dir

/-- Counterexample to C2: when querying the current executable path fails,
resolve_binaries_dir returns an error, so it does not return a path for
every state of the environment. -/
theorem claim_C2_counterexample :
    resolve_binaries_dir ⟨.error ⟨IoKind.other, none⟩, fun _ => false, none⟩ =
      .error (.Io ⟨IoKind.other, none⟩) := rfl

/-- C2 (amended): resolve_binaries_dir returns an error exactly on its two
guard failures; whenever the current executable path is available and has a
parent directory, it returns a path, for every filesystem and environment
variable state. -/
theorem claim_C2_resolver_total (env : ResolverEnv) (p d : PathC)
    (h1 : env.currentExe = .ok p) (h2 : pathParent p = some d) :
    ∃ dir, resolve_binaries_dir env = .ok dir := by
  unfold resolve_binaries_dir
  rw [h1]
  simp only [h2]
  split
  · split
    · exact ⟨_, rfl⟩
    · split
      · exact ⟨_, rfl⟩
      · exact ⟨_, rfl⟩
  · exact ⟨_, rfl⟩

/-- Witness for C2: a packaged layout resolves to the executable directory. -/
theorem claim_C2_witness :
    ∃ dir, resolve_binaries_dir
      ⟨.ok ["C:", "app", "godspeed.exe"], fun _ => false, none⟩ = .ok dir :=
  claim_C2_resolver_total _ ["C:", "app", "godspeed.exe"] ["C:", "app"] rfl rfl

/-! ## extract_zip (utils/zip.rs)

The archive is the list of its entries in stored order; each entry carries
the result of enclosed_name (none when the stored path cannot be resolved to
a path inside the destination) and its kind. Filesystem primitives are
resolved through error oracles, and the extraction effects are accumulated as
the lists of directories created and files written (with the entry index
whose bytes each file received). -/

/-- One archive entry, as the extraction code observes it. -/
structure ZipEntry where
  enclosedName : Option PathC
  isDir : Bool
deriving DecidableEq, Repr

/-- Environment of one extract_zip call. -/
structure ExtractEnv where
  openErr : Option IoError
  archiveErr : Option String
  entries : List ZipEntry
  byIndexErr : Nat → Option String
  createDirErr : PathC → Option IoError
  createFileErr : PathC → Option IoError
  copyFileErr : Nat → Option IoError
  pathExists : PathC → Bool

/-- Extraction effects: directories created and files written. -/
structure ExtractState where
  dirs : List PathC
  files : List (PathC × Nat)
deriving DecidableEq, Repr

/-- The parent-directory handling of the file arm of extract_zip. -/
def ensureParent (env : ExtractEnv) (outpath : PathC) (st : ExtractState) :
    Except AppError ExtractState :=
  match pathParent outpath with
  | some parent =>
    if !(env.pathExists parent) then
      match env.createDirErr parent with
      | some e => .error (.Io e)
      | none => .ok { st with dirs := st.dirs ++ [parent] }
    else .ok st
  | none => .ok st

/-- The entry loop of extract_zip (for i in 0..archive.len()). -/
def extractLoop (env : ExtractEnv) (dest : PathC) :
    Nat → List ZipEntry → ExtractState → Except AppError ExtractState
  | _, [], st => .ok st
  | i, e :: rest, st =>
    match env.byIndexErr i with
    | some m => .error (.Zip m)
    | none =>
      match e.enclosedName with
      | none => extractLoop env dest (i + 1) rest st
      | some name =>
        if e.isDir then
          match env.createDirErr (dest ++ name) with
          | some er => .error (.Io er)
          | none =>
            extractLoop env dest (i + 1) rest
              { st with dirs := st.dirs ++ [dest ++ name] }
        else
          match ensureParent env (dest ++ name) st with
          | .error er => .error er
          | .ok st1 =>
            match env.createFileErr (dest ++ name) with
            | some er => .error (.Io er)
            | none =>
              match env.copyFileErr i with
              | some er => .error (.Io er)
              | none =>
                extractLoop env dest (i + 1) rest
                  { st1 with files := st1.files ++ [(dest ++ name, i)] }

/-- extract_zip from utils/zip.rs (Windows build: the cfg(unix) permissions
block is compiled out). -/
def extract_zip (env : ExtractEnv) (destination : PathC) :
    Except AppError ExtractState :=
  match env.createDirErr destination with
  | some e => .error (.Io e)
  | none =>
    match env.openErr with
    | some e => .error (.Io e)
    | none =>
      match env.archiveErr with
      | some m => .error (.Zip m)
      | none => extractLoop env destination 0 env.entries ⟨[destination], []⟩

/-- Spec-side description of the files a faultless extraction writes: the
non-directory entries whose stored path resolves inside the destination, each
at destination.join(name), keyed by entry index. -/
def validFileTargets (destination : PathC) : Nat → List ZipEntry → List (PathC × Nat)
  | _, [] => []
  | i, e :: rest =>
    match e.enclosedName with
    | none => validFileTargets destination (i + 1) rest
    | some name =>
      if e.isDir then validFileTargets destination (i + 1) rest
      else (destination ++ name, i) :: validFileTargets destination (i + 1) rest

/-- The filesystem primitives of one extraction all succeed. -/
def NoFsErrors (env : ExtractEnv) : Prop :=
  env.openErr = none ∧ env.archiveErr = none ∧
  (∀ i, env.byIndexErr i = none) ∧
  (∀ p, env.createDirErr p = none) ∧
  (∀ p, env.createFileErr p = none) ∧
  (∀ i, env.copyFileErr i = none)

theorem ensureParent_clean (env : ExtractEnv) (outpath : PathC)
    (st : ExtractState) (hcd : ∀ p, env.createDirErr p = none) :
    ∃ st1, ensureParent env outpath st = .ok st1 ∧ st1.files = st.files := by
  unfold ensureParent
  split
  · split
    · rw [hcd]
      exact ⟨_, rfl, rfl⟩
    · exact ⟨st, rfl, rfl⟩
  · exact ⟨st, rfl, rfl⟩

theorem extractLoop_clean (env : ExtractEnv) (dest : PathC)
    (hbi : ∀ i, env.byIndexErr i = none)
    (hcd : ∀ p, env.createDirErr p = none)
    (hcf : ∀ p, env.createFileErr p = none)
    (hcp : ∀ i, env.copyFileErr i = none) :
    ∀ entries i st, ∃ st2, extractLoop env dest i entries st = .ok st2 ∧
      st2.files = st.files ++ validFileTargets dest i entries := by
  intro entries
  induction entries with
  | nil => intro i st; exact ⟨st, rfl, by simp [validFileTargets]⟩
  | cons e rest ih =>
    intro i st
    simp only [extractLoop, hbi i]
    cases hn : e.enclosedName with
    | none =>
      obtain ⟨st2, h1, h2⟩ := ih (i + 1) st
      exact ⟨st2, h1, by simpa [validFileTargets, hn] using h2⟩
    | some name =>
      by_cases hd : e.isDir = true
      · simp only [hd, if_true, hcd]
        obtain ⟨st2, h1, h2⟩ := ih (i + 1) { st with dirs := st.dirs ++ [dest ++ name] }
        exact ⟨st2, h1, by simpa [validFileTargets, hn, hd] using h2⟩
      · simp only [Bool.not_eq_true] at hd
        obtain ⟨st1, hp1, hp2⟩ := ensureParent_clean env (dest ++ name) st hcd
        simp only [hd, Bool.false_eq_true, if_false, hp1, hcf, hcp]
        obtain ⟨st2, h1, h2⟩ :=
          ih (i + 1) { st1 with files := st1.files ++ [(dest ++ name, i)] }
        refine ⟨st2, h1, ?_⟩
        rw [h2]
        simp [validFileTargets, hn, hd, hp2]

/-- C7: when the filesystem primitives succeed, extract_zip skips every entry
whose stored path cannot be resolved inside the destination (enclosed_name
none) without failing, and still extracts all remaining valid entries: it
returns ok and writes exactly the valid file entries, each inside the
destination. -/
theorem claim_C7_extract_zip (env : ExtractEnv) (destination : PathC)
    (h : NoFsErrors env) :
    ∃ st, extract_zip env destination = .ok st ∧
      st.files = validFileTargets destination 0 env.entries := by
  obtain ⟨ho, ha, hbi, hcd, hcf, hcp⟩ := h
  unfold extract_zip
  rw [hcd, ho, ha]
  obtain ⟨st2, h1, h2⟩ :=
    extractLoop_clean env destination hbi hcd hcf hcp env.entries 0 ⟨[destination], []⟩
  exact ⟨st2, h1, by simpa using h2⟩

/-- Witness for C7: an archive with a traversal entry (unresolvable stored
path) followed by a valid file entry extracts the valid entry and skips the
other. -/
theorem claim_C7_witness :
    ∃ st, extract_zip
        ⟨none, none, [⟨none, false⟩, ⟨some ["a.txt"], false⟩],
          fun _ => none, fun _ => none, fun _ => none, fun _ => none,
          fun _ => false⟩ ["dest"] = .ok st ∧
      st.files = validFileTargets ["dest"] 0 [⟨none, false⟩, ⟨some ["a.txt"], false⟩] :=
  claim_C7_extract_zip _ ["dest"]
    ⟨rfl, rfl, fun _ => rfl, fun _ => rfl, fun _ => rfl, fun _ => rfl⟩

/-! ## install_engine_update (commands/engine.rs)

The pipeline is embedded with an explicit effect trace (which primitives ran,
in order) and with the existence of the scratch directory threaded through as
state, so the claims about ordering and cleanup can be stated directly. -/

/-- Effect events of one install_engine_update run. -/
inductive EngEv where
  | lockCheck (binary : String)
  | removeStaleTempDir (p : PathC)
  | createTempDir (p : PathC)
  | httpSend (url : String)
  | writeZip (p : PathC)
  | extract (dest : PathC)
  | copyBinary (name : String)
  | removeTempDir (p : PathC)
deriving DecidableEq, Repr

/-- Environment of one install_engine_update call. Oracles: filesystem
existence, create_dir_all and open-for-write outcomes by path; the HTTP
client build, send, status and body outcomes; File::create and write_all for
the downloaded archive; the extraction environment; find_file_recursive and
fs::copy outcomes by binary name; and a rendering of io::Error used in the
aggregated per-binary messages. -/
structure EngineEnv where
  resolver : ResolverEnv
  fsExists : PathC → Bool
  createDirAllErr : PathC → Option IoError
  openWriteErr : PathC → Option IoError
  tempRoot : PathC
  clientBuildErr : Option String
  sendErr : Option String
  statusSuccess : Bool
  statusDisplay : String
  canonicalReason : Option String
  bytesErr : Option String
  createZipErr : Option IoError
  writeZipErr : Option IoError
  extractEnv : ExtractEnv
  findBinary : String → Option PathC
  copyOutcome : String → Nat → Option IoError
  showIo : IoError → String

/-- Result of one install_engine_update run: the command result, the effect
trace, and whether the scratch directory exists when the pipeline returns. -/
structure EngineRun where
  result : Except AppError String
  trace : List EngEv
  tempDirExists : Bool
deriving Repr

/-- is_file_locked from commands/engine.rs: a missing file is not locked;
an open-for-write failure counts as locked only for permission-denied or raw
OS codes 32 and 33. -/
def is_file_locked (env : EngineEnv) (path : PathC) : Bool :=
  if !(env.fsExists path) then false
  else
    match env.openWriteErr path with
    | none => false
    | some e =>
      e.kind = IoKind.permissionDenied || e.rawOsError = some 32 ||
        e.rawOsError = some 33

/-- The scratch directory used by the pipeline: the fixed name
godspeed_engine_update under the system temp directory. -/
def tempDirOf (env : EngineEnv) : PathC :=
  env.tempRoot ++ ["godspeed_engine_update"]

/-- The Step 2 loop: checks each binary in order, stopping at the first
locked one; returns the names checked (in order) and the first locked name. -/
def lockLoop (env : EngineEnv) (dir : PathC) :
    List String → List String × Option String
  | [] => ([], none)
  | b :: rest =>
    if is_file_locked env (dir ++ [b]) then ([b], some b)
    else
      match lockLoop env dir rest with
      | (checked, r) => (b :: checked, r)

/-- The Step 5 loop: for each binary name, search the extracted tree
(find_file_recursive, resolved by the oracle) and, when found, copy it with
copy_with_retry (3 attempts, outcomes keyed by binary name); counts successes
and collects per-binary error messages. -/
def copyLoop (env : EngineEnv) (binaries_dir : PathC) :
    List String → Nat × List String × List EngEv
  | [] => (0, [], [])
  | b :: rest =>
    match env.findBinary b with
    | none => copyLoop env binaries_dir rest
    | some _ =>
      match (copy_with_retry (env.copyOutcome b) 3).1,
          copyLoop env binaries_dir rest with
      | .ok _, (u, es, tr) => (u + 1, es, .copyBinary b :: tr)
      | .error e, (u, es, tr) =>
        (u, (b ++ ": " ++ renderAppError env.showIo e) :: es,
          .copyBinary b :: tr)

/-- Steps 3 to 7 of install_engine_update (after the lock checks): scratch
directory, download, extraction, copy and cleanup. -/
def enginePhaseDownload (env : EngineEnv) (url : String) (binaries_dir : PathC) :
    EngineRun :=
  let temp_dir := tempDirOf env
  let tr0 : List EngEv :=
    if env.fsExists temp_dir then [.removeStaleTempDir temp_dir] else []
  match env.createDirAllErr temp_dir with
  | some e => ⟨.error (.Io e), tr0, false⟩
  | none =>
    let tr1 := tr0 ++ [.createTempDir temp_dir]
    match env.clientBuildErr with
    | some m => ⟨.error (.Logic ("Failed to create HTTP client: " ++ m)), tr1, true⟩
    | none =>
      let tr2 := tr1 ++ [.httpSend url]
      match env.sendErr with
      | some m => ⟨.error (.Network m), tr2, true⟩
      | none =>
        if !env.statusSuccess then
          ⟨.error (.Logic ("Download failed with status: " ++ env.statusDisplay ++
            " - " ++ env.canonicalReason.getD "Unknown error")), tr2, true⟩
        else
          match env.bytesErr with
          | some m => ⟨.error (.Network m), tr2, true⟩
          | none =>
            match env.createZipErr with
            | some e =>
              ⟨.error (.Logic ("Failed to create temp ZIP file: " ++ env.showIo e)),
                tr2, true⟩
            | none =>
              match env.writeZipErr with
              | some e =>
                ⟨.error (.Logic ("Failed to write ZIP file: " ++ env.showIo e)),
                  tr2, true⟩
              | none =>
                let tr3 := tr2 ++ [.writeZip (temp_dir ++ ["engine.zip"])]
                let tr4 := tr3 ++ [.extract (temp_dir ++ ["extracted"])]
                match extract_zip env.extractEnv (temp_dir ++ ["extracted"]) with
                | .error e => ⟨.error e, tr4, true⟩
                | .ok _ =>
                  match copyLoop env binaries_dir ENGINE_BINARIES with
                  | (updated_count, errors, ctr) =>
                    let tr5 := (tr4 ++ ctr) ++ [.removeTempDir temp_dir]
                    if !errors.isEmpty then
                      ⟨.error (.Logic ("Updated " ++ toString updated_count ++
                        " binaries, but some failed: " ++
                        String.intercalate "; " errors)), tr5, false⟩
                    else if updated_count = 0 then
                      ⟨.error (.Logic "No engine binaries found in the update package."),
                        tr5, false⟩
                    else
                      ⟨.ok ("Engine V12 updated successfully! " ++
                        toString updated_count ++ " binaries installed."), tr5, false⟩

/-- install_engine_update from commands/engine.rs. -/
def install_engine_update (env : EngineEnv) (url : String) : EngineRun :=
  if url = "" then
    ⟨.error (.Logic "No update URL provided."), [], env.fsExists (tempDirOf env)⟩
  else
    match resolve_binaries_dir env.resolver with
    | .error e => ⟨.error e, [], env.fsExists (tempDirOf env)⟩
    | .ok binaries_dir =>
      match
        (if !(env.fsExists binaries_dir) then env.createDirAllErr binaries_dir
         else none) with
      | some e => ⟨.error (.Io e), [], env.fsExists (tempDirOf env)⟩
      | none =>
        match lockLoop env binaries_dir ENGINE_BINARIES with
        | (checked, some lockedName) =>
          ⟨.error (.Logic ("Cannot update: " ++ lockedName ++
            " is currently in use. Please stop any active downloads and try again.")),
            checked.map EngEv.lockCheck, env.fsExists (tempDirOf env)⟩
        | (checked, none) =>
          let r := enginePhaseDownload env url binaries_dir
          ⟨r.result, checked.map EngEv.lockCheck ++ r.trace, r.tempDirExists⟩

theorem lockLoop_found (env : EngineEnv) (dir : PathC) :
    ∀ bs : List String, (∃ b ∈ bs, is_file_locked env (dir ++ [b]) = true) →
      ∃ checked b0, lockLoop env dir bs = (checked, some b0) ∧ b0 ∈ bs ∧
        is_file_locked env (dir ++ [b0]) = true := by
  intro bs
  induction bs with
  | nil =>
    rintro ⟨b, hb, -⟩
    exact absurd hb (List.not_mem_nil b)
  | cons b rest ih =>
    rintro ⟨c, hc, hlc⟩
    by_cases hb : is_file_locked env (dir ++ [b]) = true
    · exact ⟨[b], b, by simp [lockLoop, hb], List.mem_cons_self b rest, hb⟩
    · have hcr : c ∈ rest := by
        rcases List.mem_cons.mp hc with h | h
        · subst h; exact absurd hlc hb
        · exact h
      obtain ⟨checked, b0, hL, hm, hlock⟩ := ih ⟨c, hcr, hlc⟩
      refine ⟨b :: checked, b0, ?_, List.mem_cons_of_mem b hm, hlock⟩
      simp [lockLoop, hb, hL]

theorem lockLoop_none (env : EngineEnv) (dir : PathC) :
    ∀ bs : List String, (∀ b ∈ bs, is_file_locked env (dir ++ [b]) = false) →
      lockLoop env dir bs = (bs, none) := by
  intro bs
  induction bs with
  | nil => intro _; rfl
  | cons b rest ih =>
    intro h
    have hb := h b (List.mem_cons_self b rest)
    have hr := ih fun c hc => h c (List.mem_cons_of_mem b hc)
    simp [lockLoop, hb, hr]

/-- C3: if the pipeline passes URL validation, directory resolution and
directory creation, and the lock probe reports some required binary locked,
then install_engine_update returns a LOGIC error naming a locked binary, and
its trace contains no HTTP request and no scratch-directory creation. -/
theorem claim_C3_lock_fails_fast (env : EngineEnv) (url : String) (d : PathC)
    (h1 : url ≠ "")
    (h2 : resolve_binaries_dir env.resolver = .ok d)
    (h3 : env.fsExists d = true ∨ env.createDirAllErr d = none)
    (h4 : ∃ b ∈ ENGINE_BINARIES, is_file_locked env (d ++ [b]) = true) :
    ∃ b, b ∈ ENGINE_BINARIES ∧ is_file_locked env (d ++ [b]) = true ∧
      (install_engine_update env url).result =
        .error (.Logic ("Cannot update: " ++ b ++
          " is currently in use. Please stop any active downloads and try again.")) ∧
      (∀ u, EngEv.httpSend u ∉ (install_engine_update env url).trace) ∧
      (∀ p, EngEv.createTempDir p ∉ (install_engine_update env url).trace) := by
  have hcs : (if !(env.fsExists d) then env.createDirAllErr d else none) = none := by
    rcases h3 with h | h
    · simp [h]
    · cases hf : env.fsExists d <;> simp [h, hf]
  obtain ⟨checked, b0, hL, hmem, hlock⟩ := lockLoop_found env d ENGINE_BINARIES h4
  have hrun : install_engine_update env url =
      ⟨.error (.Logic ("Cannot update: " ++ b0 ++
        " is currently in use. Please stop any active downloads and try again.")),
        checked.map EngEv.lockCheck, env.fsExists (tempDirOf env)⟩ := by
    unfold install_engine_update
    rw [if_neg h1, h2]
    simp only [hcs, hL]
  refine ⟨b0, hmem, hlock, by rw [hrun], ?_, ?_⟩
  · intro u hu
    rw [hrun] at hu
    simp [List.mem_map] at hu
  · intro p hp
    rw [hrun] at hp
    simp [List.mem_map] at hp

/-- Concrete environment for the C3 witness: a production layout whose
yt-dlp binary exists and is locked (permission denied on open-for-write). -/
def envC3 : EngineEnv :=
  ⟨⟨.ok ["C:", "app", "godspeed.exe"], fun _ => false, none⟩,
   fun p => decide (p = ["C:", "app", "yt-dlp-x86_64-pc-windows-msvc.exe"]),
   fun _ => none,
   fun _ => some ⟨IoKind.permissionDenied, none⟩,
   ["tmp"], none, none, true, "200 OK", some "OK", none, none, none,
   ⟨none, none, [], fun _ => none, fun _ => none, fun _ => none, fun _ => none,
     fun _ => false⟩,
   fun _ => none, fun _ _ => none, fun _ => "io error"⟩

/-- Witness for C3 at envC3. -/
theorem claim_C3_witness :
    ∃ b, b ∈ ENGINE_BINARIES ∧
      is_file_locked envC3 (["C:", "app"] ++ [b]) = true ∧
      (install_engine_update envC3 "http://u/engine.zip").result =
        .error (.Logic ("Cannot update: " ++ b ++
          " is currently in use. Please stop any active downloads and try again.")) ∧
      (∀ u, EngEv.httpSend u ∉ (install_engine_update envC3 "http://u/engine.zip").trace) ∧
      (∀ p, EngEv.createTempDir p ∉
        (install_engine_update envC3 "http://u/engine.zip").trace) :=
  claim_C3_lock_fails_fast envC3 "http://u/engine.zip" ["C:", "app"]
    (by decide) rfl (Or.inr rfl)
    ⟨"yt-dlp-x86_64-pc-windows-msvc.exe", by decide, by decide⟩

/-- Concrete environment for the C1 counterexample: everything succeeds up to
the HTTP status check, which reports 404. -/
def envC1 : EngineEnv :=
  ⟨⟨.ok ["C:", "app", "godspeed.exe"], fun _ => false, none⟩,
   fun _ => false, fun _ => none, fun _ => none, ["tmp"],
   none, none, false, "404 Not Found", some "Not Found", none, none, none,
   ⟨none, none, [], fun _ => none, fun _ => none, fun _ => none, fun _ => none,
     fun _ => false⟩,
   fun _ => none, fun _ _ => none, fun _ => "io error"⟩

/-- Counterexample to C1: in this run the scratch directory is created, the
pipeline returns the HTTP-status error, and the scratch directory still
exists when the pipeline returns, so it is not removed on every exit path. -/
theorem claim_C1_counterexample :
    EngEv.createTempDir (tempDirOf envC1) ∈
      (install_engine_update envC1 "http://u/engine.zip").trace ∧
    (install_engine_update envC1 "http://u/engine.zip").result =
      .error (.Logic "Download failed with status: 404 Not Found - Not Found") ∧
    (install_engine_update envC1 "http://u/engine.zip").tempDirExists = true := by
  refine ⟨by decide, rfl, rfl⟩

/-- C1 (amended): the scratch directory is removed before return on every
path that reaches a successful extraction (success, aggregate copy failure,
or no binaries found), whatever the find and copy outcomes; error exits
before or during download, archive write, or extraction leave the scratch
directory in place (see the counterexample), and a stale directory is removed
at the start of the next invocation instead. -/
theorem claim_C1_cleanup_after_extract (env : EngineEnv) (url : String) (d : PathC)
    (h1 : url ≠ "")
    (h2 : resolve_binaries_dir env.resolver = .ok d)
    (h3 : env.fsExists d = true ∨ env.createDirAllErr d = none)
    (h4 : ∀ b ∈ ENGINE_BINARIES, is_file_locked env (d ++ [b]) = false)
    (h5 : env.createDirAllErr (tempDirOf env) = none)
    (h6 : env.clientBuildErr = none)
    (h7 : env.sendErr = none)
    (h8 : env.statusSuccess = true)
    (h9 : env.bytesErr = none)
    (h10 : env.createZipErr = none)
    (h11 : env.writeZipErr = none)
    (h12 : ∃ st, extract_zip env.extractEnv (tempDirOf env ++ ["extracted"]) = .ok st) :
    (install_engine_update env url).tempDirExists = false ∧
    EngEv.removeTempDir (tempDirOf env) ∈ (install_engine_update env url).trace := by
  obtain ⟨st, hst⟩ := h12
  have hcs : (if !(env.fsExists d) then env.createDirAllErr d else none) = none := by
    rcases h3 with h | h
    · simp [h]
    · cases hf : env.fsExists d <;> simp [h, hf]
  have hL := lockLoop_none env d ENGINE_BINARIES h4
  have hrun : install_engine_update env url =
      ⟨(enginePhaseDownload env url d).result,
        ENGINE_BINARIES.map EngEv.lockCheck ++ (enginePhaseDownload env url d).trace,
        (enginePhaseDownload env url d).tempDirExists⟩ := by
    unfold install_engine_update
    rw [if_neg h1, h2]
    simp only [hcs, hL]
  rcases hcl : copyLoop env d ENGINE_BINARIES with ⟨u, es, ctr⟩
  have hphase : (enginePhaseDownload env url d).tempDirExists = false ∧
      EngEv.removeTempDir (tempDirOf env) ∈ (enginePhaseDownload env url d).trace := by
    constructor
    · simp only [enginePhaseDownload, h5, h6, h7, h8, h9, h10, h11, hst, hcl,
        Bool.not_true, Bool.false_eq_true, if_false]
      split
      · rfl
      · split <;> rfl
    · simp only [enginePhaseDownload, h5, h6, h7, h8, h9, h10, h11, hst, hcl,
        Bool.not_true, Bool.false_eq_true, if_false]
      split
      · simp
      · split <;> simp
  rw [hrun]
  exact ⟨hphase.1, List.mem_append_right _ hphase.2⟩

/-- Concrete environment for the C1 witness: an empty archive downloads and
extracts cleanly (the run then fails with "no binaries found", one of the
paths that does clean up). -/
def envC1ok : EngineEnv :=
  ⟨⟨.ok ["C:", "app", "godspeed.exe"], fun _ => false, none⟩,
   fun _ => false, fun _ => none, fun _ => none, ["tmp"],
   none, none, true, "200 OK", some "OK", none, none, none,
   ⟨none, none, [], fun _ => none, fun _ => none, fun _ => none, fun _ => none,
     fun _ => false⟩,
   fun _ => none, fun _ _ => none, fun _ => "io error"⟩

/-- Witness for C1 (amended) at envC1ok. -/
theorem claim_C1_witness :
    (install_engine_update envC1ok "http://u/engine.zip").tempDirExists = false ∧
    EngEv.removeTempDir (tempDirOf envC1ok) ∈
      (install_engine_update envC1ok "http://u/engine.zip").trace :=
  claim_C1_cleanup_after_extract envC1ok "http://u/engine.zip" ["C:", "app"]
    (by decide) rfl (Or.inr rfl) (fun _ _ => rfl) rfl rfl rfl rfl rfl rfl rfl
    ⟨⟨[["tmp", "godspeed_engine_update", "extracted"]], []⟩, rfl⟩

theorem copyLoop_events (env : EngineEnv) (dir : PathC) :
    ∀ bs ev, ev ∈ (copyLoop env dir bs).2.2 → ∃ b, ev = EngEv.copyBinary b := by
  intro bs
  induction bs with
  | nil => intro ev h; simp [copyLoop] at h
  | cons b rest ih =>
    intro ev h
    unfold copyLoop at h
    cases hf : env.findBinary b with
    | none =>
      rw [hf] at h
      exact ih ev h
    | some src =>
      rw [hf] at h
      rcases hcl : copyLoop env dir rest with ⟨u, es, tr⟩
      rw [hcl] at h
      have htr : ∀ e2 ∈ tr, ∃ b2, e2 = EngEv.copyBinary b2 := by
        intro e2 he2
        have := ih e2
        rw [hcl] at this
        exact this he2
      cases hr : (copy_with_retry (env.copyOutcome b) 3).1 with
      | ok _ =>
        rw [hr] at h
        simp only [List.mem_cons] at h
        rcases h with h | h
        · exact ⟨b, h⟩
        · exact htr ev h
      | error e =>
        rw [hr] at h
        simp only [List.mem_cons] at h
        rcases h with h | h
        · exact ⟨b, h⟩
        · exact htr ev h

theorem enginePhase_createTempDir (env : EngineEnv) (url : String)
    (binaries_dir : PathC) (p : PathC)
    (h : EngEv.createTempDir p ∈ (enginePhaseDownload env url binaries_dir).trace) :
    p = tempDirOf env := by
  rcases hcl : copyLoop env binaries_dir ENGINE_BINARIES with ⟨u, es, ctr⟩
  have hctr : EngEv.createTempDir p ∉ ctr := by
    intro hin
    obtain ⟨b2, hb2⟩ := copyLoop_events env binaries_dir ENGINE_BINARIES
      (EngEv.createTempDir p) (by rw [hcl]; exact hin)
    exact EngEv.noConfusion hb2
  have ht0 : EngEv.createTempDir p ∉
      (if env.fsExists (tempDirOf env) = true
       then [EngEv.removeStaleTempDir (tempDirOf env)] else ([] : List EngEv)) := by
    split <;> simp
  simp only [enginePhaseDownload, hcl] at h
  cases h1 : env.createDirAllErr (tempDirOf env) with
  | some e =>
    simp only [h1] at h
    exact absurd h ht0
  | none =>
    simp only [h1] at h
    cases h2 : env.clientBuildErr with
    | some m =>
      simp only [h2] at h
      rcases List.mem_append.mp h with h | h
      · exact absurd h ht0
      · simpa using h
    | none =>
      simp only [h2] at h
      cases h3 : env.sendErr with
      | some m =>
        simp only [h3] at h
        rcases List.mem_append.mp h with h | h
        · rcases List.mem_append.mp h with h | h
          · exact absurd h ht0
          · simpa using h
        · simp at h
      | none =>
        simp only [h3] at h
        cases hs : env.statusSuccess with
        | false =>
          simp only [hs] at h
          simp only [Bool.not_false, if_true] at h
          rcases List.mem_append.mp h with h | h
          · rcases List.mem_append.mp h with h | h
            · exact absurd h ht0
            · simpa using h
          · simp at h
        | true =>
          simp only [hs] at h
          simp only [Bool.not_true, Bool.false_eq_true, if_false] at h
          cases h5 : env.bytesErr with
          | some m =>
            simp only [h5] at h
            rcases List.mem_append.mp h with h | h
            · rcases List.mem_append.mp h with h | h
              · exact absurd h ht0
              · simpa using h
            · simp at h
          | none =>
            simp only [h5] at h
            cases h6 : env.createZipErr with
            | some e =>
              simp only [h6] at h
              rcases List.mem_append.mp h with h | h
              · rcases List.mem_append.mp h with h | h
                · exact absurd h ht0
                · simpa using h
              · simp at h
            | none =>
              simp only [h6] at h
              cases h7 : env.writeZipErr with
              | some e =>
                simp only [h7] at h
                rcases List.mem_append.mp h with h | h
                · rcases List.mem_append.mp h with h | h
                  · exact absurd h ht0
                  · simpa using h
                · simp at h
              | none =>
                simp only [h7] at h
                cases h8 : extract_zip env.extractEnv (tempDirOf env ++ ["extracted"]) with
                | error e =>
                  simp only [h8] at h
                  rcases List.mem_append.mp h with h | h
                  · rcases List.mem_append.mp h with h | h
                    · rcases List.mem_append.mp h with h | h
                      · rcases List.mem_append.mp h with h | h
                        · exact absurd h ht0
                        · simpa using h
                      · simp at h
                    · simp at h
                  · simp at h
                | ok st =>
                  simp only [h8] at h
                  have hfin : EngEv.createTempDir p ∈
                      ((if env.fsExists (tempDirOf env) = true
                        then [EngEv.removeStaleTempDir (tempDirOf env)]
                        else []) ++
                        [EngEv.createTempDir (tempDirOf env)] ++
                        [EngEv.httpSend url] ++
                        [EngEv.writeZip (tempDirOf env ++ ["engine.zip"])] ++
                        [EngEv.extract (tempDirOf env ++ ["extracted"])] ++
                        ctr ++ [EngEv.removeTempDir (tempDirOf env)]) := by
                    split at h
                    · exact h
                    · split at h
                      · exact h
                      · exact h
                  rcases List.mem_append.mp hfin with h | h
                  · rcases List.mem_append.mp h with h | h
                    · rcases List.mem_append.mp h with h | h
                      · rcases List.mem_append.mp h with h | h
                        · rcases List.mem_append.mp h with h | h
                          · rcases List.mem_append.mp h with h | h
                            · exact absurd h ht0
                            · simpa using h
                          · simp at h
                        · simp at h
                      · simp at h
                    · exact absurd h hctr
                  · simp at h

/-- Concrete environment for the C9 counterexample and witness. -/
def envC9 : EngineEnv :=
  ⟨⟨.ok ["C:", "app", "godspeed.exe"], fun _ => false, none⟩,
   fun _ => false, fun _ => none, fun _ => none, ["tmp"],
   none, none, false, "404 Not Found", some "Not Found", none, none, none,
   ⟨none, none, [], fun _ => none, fun _ => none, fun _ => none, fun _ => none,
     fun _ => false⟩,
   fun _ => none, fun _ _ => none, fun _ => "io error"⟩

/-- Counterexample to C9: two distinct invocations of the pipeline (different
URLs) both create a scratch directory with the same name
godspeed_engine_update under the same temp root, so scratch names are not
operation-unique. -/
theorem claim_C9_counterexample :
    EngEv.createTempDir ["tmp", "godspeed_engine_update"] ∈
      (install_engine_update envC9 "http://a/one.zip").trace ∧
    EngEv.createTempDir ["tmp", "godspeed_engine_update"] ∈
      (install_engine_update envC9 "http://b/two.zip").trace := by
  exact ⟨by decide, by decide⟩

/-- C9 (amended): every scratch directory the pipeline creates has the same
fixed path: the name godspeed_engine_update under the system temp directory.
Uniqueness is not generated; instead any stale scratch directory is removed
at the start of the run. Consequently any two invocations sharing the temp
root use identical scratch names. -/
theorem claim_C9_fixed_scratch_dir (env : EngineEnv) (url : String) (p : PathC)
    (h : EngEv.createTempDir p ∈ (install_engine_update env url).trace) :
    p = env.tempRoot ++ ["godspeed_engine_update"] := by
  unfold install_engine_update at h
  by_cases hu : url = ""
  · rw [if_pos hu] at h
    simp at h
  · rw [if_neg hu] at h
    cases hr : resolve_binaries_dir env.resolver with
    | error e =>
      simp only [hr] at h
      simp at h
    | ok d =>
      simp only [hr] at h
      cases hcd : (if !(env.fsExists d) then env.createDirAllErr d else none) with
      | some e =>
        simp only [hcd] at h
        simp at h
      | none =>
        simp only [hcd] at h
        rcases hll : lockLoop env d ENGINE_BINARIES with ⟨checked, r⟩
        simp only [hll] at h
        cases r with
        | some lockedName =>
          simp [List.mem_map] at h
        | none =>
          rcases List.mem_append.mp h with h | h
          · simp [List.mem_map] at h
          · exact enginePhase_createTempDir env url d p h

/-- Witness for C9 (amended): the scratch path of a concrete run equals the
fixed name under the environment temp root. -/
theorem claim_C9_witness :
    (["tmp", "godspeed_engine_update"] : PathC) =
      envC9.tempRoot ++ ["godspeed_engine_update"] :=
  claim_C9_fixed_scratch_dir envC9 "http://a/one.zip"
    ["tmp", "godspeed_engine_update"] (by decide)

end Godspeed